import Mathlib

/-!
Verification of the structured-completion pipeline of the Travel-Agent demo
repository (v2 / v4 / v5 scripts).  The Python sources are shallowly embedded:
strings are `String` / `List Char`, JSON numbers are exact decimals, the pydantic
models become Lean structures, `model_validate_json` becomes a JSON parser
plus a lax field validator, and `handle_query` (v5) becomes a pure function
over an injected completion gateway.  Exceptions that the Python code does
not catch are surfaced as an `Except`-style error value of the embedding.
-/

namespace TravelAgent

/-! ### Characters and low-level string utilities -/

/-- ASCII whitespace, as recognised both by Python `str.strip()` (on ASCII
input) and by the JSON grammar. -/
def wsC (c : Char) : Bool := c == ' ' || c == '\t' || c == '\n' || c == '\r'

/-- A backtick character (the fence delimiter). -/
def tickC (c : Char) : Bool := c == '`'

/-- ASCII decimal digit. -/
def digitC (c : Char) : Bool := 48 ≤ c.toNat && c.toNat ≤ 57

/-- Python `str.strip()` on a character list. -/
def trimL (l : List Char) : List Char := (l.dropWhile wsC).rdropWhile wsC

/-- Python `str.strip('\x60')`: remove every leading and trailing backtick. -/
def stripTicksL (l : List Char) : List Char := (l.dropWhile tickC).rdropWhile tickC

/-! ### JSON values

The JSON texts handled by the pipeline are parsed exactly as Python
`json` / pydantic's JSON parser does at the grammar level; numbers are kept
exact as rationals (mantissa times a power of ten), which is faithful for
every comparison the pipeline performs. -/

/-- An exact decimal number `n / d`, where `d` is always a positive power of
ten by construction.  This carries the precise value of a JSON number
(Python floats at the precision the pipeline ever compares); arithmetic stays
within `Int` and `Nat`, so every comparison reduces by computation. -/
structure PyNum where
  n : Int
  d : Nat
deriving DecidableEq

/-- The integer `n` as a `PyNum`. -/
def intNum (n : Int) : PyNum := ⟨n, 1⟩

/-- Is the number semantically one? -/
def PyNum.isOne (q : PyNum) : Bool := q.n == (q.d : Int)

/-- Is the number semantically zero? -/
def PyNum.isZero (q : PyNum) : Bool := q.n == 0

inductive JVal where
  | null
  | bool (b : Bool)
  | num (q : PyNum)
  | str (s : String)
  | arr (items : List JVal)
  | obj (fields : List (String × JVal))

/-- Numeric value of a list of decimal digits. -/
def digsVal (ds : List Char) : Nat := ds.foldl (fun a c => a * 10 + (c.toNat - 48)) 0

/-- Hexadecimal digit value, for `\uXXXX` escapes. -/
def hexDigVal (c : Char) : Option Nat :=
  if 48 ≤ c.toNat && c.toNat ≤ 57 then some (c.toNat - 48)
  else if 97 ≤ c.toNat && c.toNat ≤ 102 then some (c.toNat - 87)
  else if 65 ≤ c.toNat && c.toNat ≤ 70 then some (c.toNat - 55)
  else none

/-- Single-character escapes of the JSON grammar. -/
def escC : Char → Option Char
  | '"' => some '"'
  | '\\' => some '\\'
  | '/' => some '/'
  | 'b' => some (Char.ofNat 8)
  | 'f' => some (Char.ofNat 12)
  | 'n' => some '\n'
  | 'r' => some '\r'
  | 't' => some '\t'
  | _ => none

/-- Contents of a JSON string after its opening quote, up to and including the
closing quote.  Raw control characters are rejected, as Python's strict JSON
parsing does. -/
def strBody : List Char → Option (List Char × List Char)
  | [] => none
  | c :: rest =>
    if c = '"' then some ([], rest)
    else if c = '\\' then
      match rest with
      | [] => none
      | e :: rest2 =>
        if e = 'u' then
          match rest2 with
          | a :: b :: x :: d :: rest3 =>
            match hexDigVal a, hexDigVal b, hexDigVal x, hexDigVal d with
            | some va, some vb, some vx, some vd =>
              (strBody rest3).map
                (fun p => (Char.ofNat (((va * 16 + vb) * 16 + vx) * 16 + vd) :: p.1, p.2))
            | _, _, _, _ => none
          | _ => none
        else
          match escC e with
          | some ch => (strBody rest2).map (fun p => (ch :: p.1, p.2))
          | none => none
    else if c.toNat < 32 then none
    else (strBody rest).map (fun p => (c :: p.1, p.2))

/-- Assemble the rational value of a parsed JSON number. -/
def numCore (neg : Bool) (intDs fracDs : List Char) (expNeg : Bool) (expDs : List Char) : PyNum :=
  let mant : Int := (digsVal (intDs ++ fracDs) : Int)
  let m : Int := if neg then -mant else mant
  let e : Int := (if expNeg then -(digsVal expDs : Int) else (digsVal expDs : Int)) - (fracDs.length : Int)
  if 0 ≤ e then ⟨m * ((10 ^ e.toNat : Nat) : Int), 1⟩ else ⟨m, 10 ^ (-e).toNat⟩

/-- The optional sign of an exponent: the consumed sign (`true` for minus)
and what follows it. -/
def numExpSign : List Char → Bool × List Char
  | [] => (false, [])
  | c :: r => if c = '+' then (false, r) else if c = '-' then (true, r) else (false, c :: r)

/-- The digits of an exponent, after `e`/`E`: an optional sign then a
nonempty digit run. -/
def numExpDigits (neg : Bool) (intDs fracDs : List Char) (r : List Char) :
    Option (PyNum × List Char) :=
  let r1 := (numExpSign r).2
  let eds := r1.takeWhile digitC
  if eds.isEmpty then none
  else some (numCore neg intDs fracDs (numExpSign r).1 eds, r1.dropWhile digitC)

/-- Optional exponent part of a JSON number. -/
def numExpTail (neg : Bool) (intDs fracDs : List Char) (cs : List Char) :
    Option (PyNum × List Char) :=
  match cs with
  | [] => some (numCore neg intDs fracDs false [], [])
  | c :: r =>
    if c = 'e' ∨ c = 'E' then numExpDigits neg intDs fracDs r
    else some (numCore neg intDs fracDs false [], c :: r)

/-- Optional fraction part (then exponent) of a JSON number. -/
def numTail (neg : Bool) (intDs : List Char) (cs : List Char) : Option (PyNum × List Char) :=
  match cs with
  | [] => numExpTail neg intDs [] []
  | c :: r =>
    if c = '.' then
      if (r.takeWhile digitC).isEmpty then none
      else numExpTail neg intDs (r.takeWhile digitC) (r.dropWhile digitC)
    else numExpTail neg intDs [] (c :: r)

/-- Integer part of a JSON number: a single `0`, or a nonzero digit run. -/
def numIntPart (neg : Bool) (cs : List Char) : Option (PyNum × List Char) :=
  match cs with
  | [] => none
  | c :: t =>
    if c = '0' then numTail neg ['0'] t
    else if digitC c then numTail neg ((c :: t).takeWhile digitC) ((c :: t).dropWhile digitC)
    else none

/-- Lex a JSON number (RFC 8259 grammar) into its exact decimal value. -/
def numLex (cs : List Char) : Option (PyNum × List Char) :=
  match cs with
  | [] => none
  | c :: t => if c = '-' then numIntPart true t else numIntPart false (c :: t)

/-! ### The JSON parser

Recursion is structural on a fuel counter; the top-level entry point supplies
more fuel than any input can consume, so running out of fuel never occurs on
the concrete inputs the theorems evaluate. -/

mutual

/-- Parse one JSON value.  The input is expected to start at a non-blank
character (callers skip whitespace). -/
def parseJVal : Nat → List Char → Option (JVal × List Char)
  | 0, _ => none
  | _ + 1, [] => none
  | n + 1, c :: cs =>
    if c = '{' then
      match cs.dropWhile wsC with
      | '}' :: r => some (.obj [], r)
      | cs1 => (parseJFields n cs1).map (fun p => (.obj p.1, p.2))
    else if c = '[' then
      match cs.dropWhile wsC with
      | ']' :: r => some (.arr [], r)
      | cs1 => (parseJElems n cs1).map (fun p => (.arr p.1, p.2))
    else if c = '"' then
      (strBody cs).map (fun p => (.str ⟨p.1⟩, p.2))
    else if c = 't' then
      match cs with
      | 'r' :: 'u' :: 'e' :: r => some (.bool true, r)
      | _ => none
    else if c = 'f' then
      match cs with
      | 'a' :: 'l' :: 's' :: 'e' :: r => some (.bool false, r)
      | _ => none
    else if c = 'n' then
      match cs with
      | 'u' :: 'l' :: 'l' :: r => some (.null, r)
      | _ => none
    else if c = '-' ∨ digitC c then (numLex (c :: cs)).map (fun p => (.num p.1, p.2))
    else none

/-- Parse the members of a JSON object, starting at the first key's opening
quote, up to and including the closing brace. -/
def parseJFields : Nat → List Char → Option (List (String × JVal) × List Char)
  | 0, _ => none
  | n + 1, cs =>
    match cs with
    | '"' :: cs0 =>
      match strBody cs0 with
      | none => none
      | some (k, cs1) =>
        match cs1.dropWhile wsC with
        | ':' :: cs2 =>
          match parseJVal n (cs2.dropWhile wsC) with
          | none => none
          | some (v, cs3) =>
            match cs3.dropWhile wsC with
            | ',' :: cs4 => (parseJFields n (cs4.dropWhile wsC)).map
                (fun p => ((⟨k⟩, v) :: p.1, p.2))
            | '}' :: cs4 => some ([(⟨k⟩, v)], cs4)
            | _ => none
        | _ => none
    | _ => none

/-- Parse the elements of a JSON array, starting at the first element, up to
and including the closing bracket. -/
def parseJElems : Nat → List Char → Option (List JVal × List Char)
  | 0, _ => none
  | n + 1, cs =>
    match parseJVal n cs with
    | none => none
    | some (v, cs1) =>
      match cs1.dropWhile wsC with
      | ',' :: cs2 => (parseJElems n (cs2.dropWhile wsC)).map (fun p => (v :: p.1, p.2))
      | ']' :: cs2 => some ([v], cs2)
      | _ => none

end

/-- Parse a complete JSON document from a string: leading and trailing
whitespace is allowed, and the value must span the whole remaining text —
exactly the acceptance behaviour of Python `json.loads` / pydantic's
`model_validate_json` at the grammar level. -/
def jparse (s : String) : Option JVal :=
  let l := trimL s.data
  match parseJVal (l.length + 1) l with
  | some (v, []) => some v
  | _ => none

/-! ### Response sanitizers

Two fence-stripping strategies appear in the source:
`v2_structured_output.py` applies the regular expression
`^\x60\x60\x60json\n?|\x60\x60\x60$` (case-insensitive) to the trimmed text and
trims again; `v5_guardrails_and_context.py` runs
`content.strip().strip('\x60').strip()` and then, when the result starts with
the word `json`, keeps only what follows the first newline
(`split("\n", 1)[1]`, which raises `IndexError` when no newline exists —
modelled as `none`). -/

/-- The v5 sanitizer on character lists. -/
def sanitizeV5L (l : List Char) : Option (List Char) :=
  let s3 := trimL (stripTicksL (trimL l))
  if ("json".data).isPrefixOf s3 then
    match s3.dropWhile (fun c => !(c == '\n')) with
    | [] => none
    | _ :: t => some t
  else some s3

/-- The v5 sanitizer: `strip`, `strip('\x60')`, `strip`, then drop a leading
`json` line.  `none` models the uncaught `IndexError` of `split("\n", 1)[1]`
on a newline-free remainder. -/
def sanitizeV5 (s : String) : Option String := (sanitizeV5L s.data).map (fun l => (⟨l⟩ : String))

/-- Does the text begin with a fenced `json` tag (three backticks then the
word `json`, case-insensitively)? -/
def fenceTagAt (l : List Char) : Bool :=
  match l with
  | '`' :: '`' :: '`' :: c1 :: c2 :: c3 :: c4 :: _ =>
    c1.toLower == 'j' && c2.toLower == 's' && c3.toLower == 'o' && c4.toLower == 'n'
  | _ => false

/-- Drop the matched opening fence (and the optional newline the regex's
`\n?` also consumes). -/
def dropFenceTag (l : List Char) : List Char :=
  match l.drop 7 with
  | '\n' :: r => r
  | r => r

/-- Three backticks, the closing fence. -/
def tick3 : List Char := ['`', '`', '`']

/-- One pass of `re.sub("^\x60\x60\x60json\n?|\x60\x60\x60$", "", u)`: remove
the opening fence at the start, then the closing fence — which the `$` anchor
finds either at the very end or immediately before a final newline. -/
def fenceSub (l : List Char) : List Char :=
  let u := if fenceTagAt l then dropFenceTag l else l
  if tick3.isSuffixOf u then u.take (u.length - 3)
  else if (tick3 ++ ['\n']).isSuffixOf u then u.take (u.length - 4) ++ ['\n']
  else u

/-- The v2 sanitizer: trim, apply the fence-stripping regex, trim again. -/
def sanitizeV2 (s : String) : String := (⟨trimL (fenceSub (trimL s.data))⟩ : String)

/-! ### The pydantic models and their lax validation

The four `BaseModel` classes of the source, with `float` carried as an exact
rational.  `model_validate_json` in pydantic v2's default (lax) mode accepts
values merely coercible to the declared type: an integer or a numeric string
where a float is declared, an integral float or a numeric string where an int
is declared, 0/1 or the usual truthy/falsy words where a bool is declared.
Unknown extra fields are ignored; every required-field and type problem is
collected, not just the first. -/

structure FlightRecommendation where
  airline : String
  departure_time : String
  arrival_time : String
  price : PyNum
  direct_flight : Bool
  recommendation_reason : String
deriving DecidableEq

structure HotelRecommendation where
  name : String
  location : String
  price_per_night : PyNum
  amenities : List String
  recommendation_reason : String
deriving DecidableEq

structure TravelPlan where
  destination : String
  duration_days : Int
  budget : PyNum
  activities : List String
  notes : String
deriving DecidableEq

structure BudgetAnalysis where
  is_realistic : Bool
  reasoning : String
  suggested_budget : Option PyNum
deriving DecidableEq

/-- The `UserContext` dataclass of `v5_guardrails_and_context.py`. -/
structure UserContext where
  user_id : String
  preferred_airlines : List String
  hotel_amenities : List String
  budget_level : String
  session_start : String
deriving DecidableEq

/-- The closed set of target schemas of the pipeline. -/
inductive SchemaKind where
  | flight
  | hotel
  | plan
  | budget
deriving DecidableEq

/-- A successfully validated record of some schema. -/
inductive ParsedRecord where
  | flightR (r : FlightRecommendation)
  | hotelR (r : HotelRecommendation)
  | planR (r : TravelPlan)
  | budgetR (r : BudgetAnalysis)
deriving DecidableEq

/-- Last-occurrence field lookup, matching the duplicate-key behaviour of the
JSON object construction the Python side performs. -/
def lookupField (fs : List (String × JVal)) (k : String) : Option JVal :=
  fs.reverse.lookup k

/-- Lowercase a string (ASCII, as `str.lower()` behaves on these inputs). -/
def lowerS (s : String) : String := (⟨s.data.map Char.toLower⟩ : String)

/-- A Python/Rust float literal: optional sign, decimal digits with an
optional point (digits on at least one side), optional exponent, nothing
else.  Used for the lax string-to-float coercion. -/
def decExpDigits (neg : Bool) (ids fds : List Char) (r : List Char) : Option PyNum :=
  let (esgn, r1) := match r with
    | '+' :: t => (false, t)
    | '-' :: t => (true, t)
    | _ => (false, r)
  let eds := r1.takeWhile digitC
  if eds.isEmpty then none
  else if (r1.dropWhile digitC).isEmpty then some (numCore neg ids fds esgn eds) else none

/-- Exponent-or-end tail of a decimal literal. -/
def decExp (neg : Bool) (ids fds : List Char) (cs : List Char) : Option PyNum :=
  match cs with
  | [] => some (numCore neg ids fds false [])
  | 'e' :: r => decExpDigits neg ids fds r
  | 'E' :: r => decExpDigits neg ids fds r
  | _ => none

/-- Parse a full decimal literal from a character list. -/
def decLit (cs : List Char) : Option PyNum :=
  let (neg, cs1) := match cs with
    | '-' :: t => (true, t)
    | '+' :: t => (false, t)
    | _ => (false, cs)
  let ids := cs1.takeWhile digitC
  let r1 := cs1.dropWhile digitC
  match r1 with
  | '.' :: r2 =>
    let fds := r2.takeWhile digitC
    let r3 := r2.dropWhile digitC
    if ids.isEmpty && fds.isEmpty then none else decExp neg ids fds r3
  | _ => if ids.isEmpty then none else decExp neg ids [] r1

/-- Lax string-to-float coercion (finite decimal literals). -/
def numFromPyStr (s : String) : Option PyNum := decLit (trimL s.data)

/-- Lax string-to-int coercion. -/
def intFromPyStr (s : String) : Option Int :=
  let cs := trimL s.data
  let (neg, cs1) := match cs with
    | '-' :: t => (true, t)
    | '+' :: t => (false, t)
    | _ => (false, cs)
  let ds := cs1.takeWhile digitC
  if ds.isEmpty then none
  else if (cs1.dropWhile digitC).isEmpty then
    some (if neg then -(digsVal ds : Int) else (digsVal ds : Int))
  else none

/-- Validate a declared `str` field (pydantic v2 does not coerce numbers to
strings). -/
def vStr : JVal → Except String String
  | .str s => .ok s
  | _ => .error "Input should be a valid string"

/-- Validate a declared `float` field: numbers, and numeric strings, laxly. -/
def vFloat : JVal → Except String PyNum
  | .num q => .ok q
  | .str s =>
    match numFromPyStr s with
    | some q => .ok q
    | none => .error "Input should be a valid number, unable to parse string as a number"
  | _ => .error "Input should be a valid number"

/-- Validate a declared `int` field: integral numbers, and integer strings. -/
def vInt : JVal → Except String Int
  | .num q =>
    if q.n.emod (q.d : Int) = 0 then .ok (q.n.ediv (q.d : Int))
    else .error "Input should be a valid integer, got a number with a fractional part"
  | .str s =>
    match intFromPyStr s with
    | some n => .ok n
    | none => .error "Input should be a valid integer, unable to parse string as an integer"
  | _ => .error "Input should be a valid integer"

/-- The truthy spellings pydantic's lax bool validation accepts. -/
def boolTrueWords : List String := ["true", "t", "yes", "y", "on", "1"]

/-- The falsy spellings pydantic's lax bool validation accepts. -/
def boolFalseWords : List String := ["false", "f", "no", "n", "off", "0"]

/-- Validate a declared `bool` field laxly. -/
def vBool : JVal → Except String Bool
  | .bool b => .ok b
  | .num q =>
    if q.isOne then .ok true
    else if q.isZero then .ok false
    else .error "Input should be a valid boolean"
  | .str s =>
    if boolTrueWords.contains (lowerS s) then .ok true
    else if boolFalseWords.contains (lowerS s) then .ok false
    else .error "Input should be a valid boolean, unable to interpret input"
  | _ => .error "Input should be a valid boolean"

/-- Validate the items of a declared `List[str]` field. -/
def vStrItems : List JVal → Except String (List String)
  | [] => .ok []
  | x :: xs =>
    match vStr x, vStrItems xs with
    | .ok s, .ok rest => .ok (s :: rest)
    | .error e, _ => .error e
    | _, .error e => .error e

/-- Validate a declared `List[str]` field. -/
def vStrList : JVal → Except String (List String)
  | .arr xs => vStrItems xs
  | _ => .error "Input should be a valid list"

/-- Validate one required field, tagging any problem with the field name. -/
def reqField (fs : List (String × JVal)) (name : String)
    (vf : JVal → Except String α) : Except (List String) α :=
  match lookupField fs name with
  | none => .error [name ++ ": Field required"]
  | some jv =>
    match vf jv with
    | .ok a => .ok a
    | .error e => .error [name ++ ": " ++ e]

/-- Validate an `Optional[float] = None` field: absent or `null` is `none`. -/
def optNumField (fs : List (String × JVal)) (name : String) : Except (List String) (Option PyNum) :=
  match lookupField fs name with
  | none => .ok none
  | some .null => .ok none
  | some jv =>
    match vFloat jv with
    | .ok q => .ok (some q)
    | .error e => .error [name ++ ": " ++ e]

/-- Combine two field validations, accumulating the problems of both. -/
def andE : Except (List String) α → Except (List String) β → Except (List String) (α × β)
  | .ok a, .ok b => .ok (a, b)
  | .error e1, .error e2 => .error (e1 ++ e2)
  | .error e1, .ok _ => .error e1
  | .ok _, .error e2 => .error e2

/-- A model input must be a JSON object. -/
def asObjFields : JVal → Except (List String) (List (String × JVal))
  | .obj fs => .ok fs
  | _ => .error ["Input should be a valid dictionary or object"]

/-- Validation of `FlightRecommendation` on a parsed JSON value. -/
def validateFlight (v : JVal) : Except (List String) FlightRecommendation :=
  match asObjFields v with
  | .error e => .error e
  | .ok fs =>
    match andE (reqField fs "airline" vStr)
        (andE (reqField fs "departure_time" vStr)
        (andE (reqField fs "arrival_time" vStr)
        (andE (reqField fs "price" vFloat)
        (andE (reqField fs "direct_flight" vBool)
              (reqField fs "recommendation_reason" vStr))))) with
    | .ok (a, d, ar, p, df, rr) => .ok ⟨a, d, ar, p, df, rr⟩
    | .error e => .error e

/-- Validation of `HotelRecommendation` on a parsed JSON value. -/
def validateHotel (v : JVal) : Except (List String) HotelRecommendation :=
  match asObjFields v with
  | .error e => .error e
  | .ok fs =>
    match andE (reqField fs "name" vStr)
        (andE (reqField fs "location" vStr)
        (andE (reqField fs "price_per_night" vFloat)
        (andE (reqField fs "amenities" vStrList)
              (reqField fs "recommendation_reason" vStr)))) with
    | .ok (n, l, p, am, rr) => .ok ⟨n, l, p, am, rr⟩
    | .error e => .error e

/-- Validation of `TravelPlan` on a parsed JSON value. -/
def validatePlan (v : JVal) : Except (List String) TravelPlan :=
  match asObjFields v with
  | .error e => .error e
  | .ok fs =>
    match andE (reqField fs "destination" vStr)
        (andE (reqField fs "duration_days" vInt)
        (andE (reqField fs "budget" vFloat)
        (andE (reqField fs "activities" vStrList)
              (reqField fs "notes" vStr)))) with
    | .ok (d, dd, b, ac, n) => .ok ⟨d, dd, b, ac, n⟩
    | .error e => .error e

/-- Validation of `BudgetAnalysis` on a parsed JSON value. -/
def validateBudget (v : JVal) : Except (List String) BudgetAnalysis :=
  match asObjFields v with
  | .error e => .error e
  | .ok fs =>
    match andE (reqField fs "is_realistic" vBool)
        (andE (reqField fs "reasoning" vStr)
              (optNumField fs "suggested_budget")) with
    | .ok (ir, rs, sb) => .ok ⟨ir, rs, sb⟩
    | .error e => .error e

/-- The `model_validate_json` entry point for the schema selected by `k`. -/
def modelValidateJson (k : SchemaKind) (s : String) : Except (List String) ParsedRecord :=
  match jparse s with
  | none => .error ["Invalid JSON: expected a complete JSON document"]
  | some v =>
    match k with
    | .flight => (validateFlight v).map .flightR
    | .hotel => (validateHotel v).map .hotelR
    | .plan => (validatePlan v).map .planR
    | .budget => (validateBudget v).map .budgetR

/-- Validation of `BudgetAnalysis` from JSON text, as the guardrail path invokes it. -/
def budgetValidateJson (s : String) : Except (List String) BudgetAnalysis :=
  match jparse s with
  | none => .error ["Invalid JSON: expected a complete JSON document"]
  | some v => validateBudget v

/-! ### Intent routing, prompts, and the v5 orchestrator -/

/-- Does `sub` occur as a contiguous run inside `hay`? -/
def hasInfix (sub : List Char) : List Char → Bool
  | [] => sub.isEmpty
  | c :: t => sub.isPrefixOf (c :: t) || hasInfix sub t

/-- Substring containment, as Python's `in` on strings. -/
def containsSub (hay sub : String) : Bool := hasInfix sub.data hay.data

/-- The keyword router of `handle_query` (identical in v4 and v5):
`"flight" in query.lower()` wins, then `"hotel"`, else the travel plan. -/
def route (query : String) : SchemaKind :=
  if containsSub (lowerS query) "flight" then .flight
  else if containsSub (lowerS query) "hotel" then .hotel
  else .plan

/-- Python `repr` of a list of strings, as an f-string renders it. -/
def pyStrListRepr (xs : List String) : String :=
  "[" ++ String.intercalate ", " (xs.map (fun s => "'" ++ s ++ "'")) ++ "]"

/-- Stands for `json.dumps(Model.model_json_schema(), indent=2)`; the exact
generated text never matters to the properties proved here, so it is a fixed
description per schema. -/
def schemaText : SchemaKind → String
  | .flight => "JSON schema of FlightRecommendation: airline, departure_time, arrival_time, price, direct_flight, recommendation_reason"
  | .hotel => "JSON schema of HotelRecommendation: name, location, price_per_night, amenities, recommendation_reason"
  | .plan => "JSON schema of TravelPlan: destination, duration_days, budget, activities, notes"
  | .budget => "JSON schema of BudgetAnalysis: is_realistic, reasoning, suggested_budget"

/-- The rendered preference block of the v5 prompt. -/
def contextStr (ctx : UserContext) : String :=
  "Preferred Airlines: " ++ pyStrListRepr ctx.preferred_airlines ++ "\n" ++
  "Hotel Amenities: " ++ pyStrListRepr ctx.hotel_amenities ++ "\n" ++
  "Budget Level: " ++ ctx.budget_level ++ "\nSession Start: " ++ ctx.session_start

/-- The `build_prompt` function of `v5_guardrails_and_context.py`: persona line, rendered
preferences, schema block, the query.  Pure: it only reads the context. -/
def build_prompt (k : SchemaKind) (query : String) (ctx : UserContext) : String :=
  "\nYou are a helpful travel assistant.\nUser Preferences:\n" ++ contextStr ctx ++
  "\n\nRespond ONLY with a JSON object that matches this schema:\n" ++ schemaText k ++
  "\n\nUser Query: " ++ query ++ "\n"

/-- The `build_budget_check_prompt` function of `v5_guardrails_and_context.py`. -/
def build_budget_check_prompt (query : String) : String :=
  "\nYou are a budget check assistant.\nEvaluate if this travel budget is realistic.\nRespond ONLY with JSON that matches:\n"
  ++ schemaText .budget ++ "\n\nQuery: " ++ query ++ "\n"

/-- One chat-completion outcome: the completion text, or a raised
transport/provider error. -/
inductive GwResult where
  | ok (content : String)
  | err
deriving DecidableEq

/-- The injected completion gateway: call index within one `handle_query`
invocation (0 = guardrail, 1 = main) and the prompt sent. -/
def Gateway : Type := Nat → String → GwResult

/-- A value inside one of the result dicts the source returns. -/
inductive DVal where
  | s (v : String)
  | num (q : PyNum)
  | noneV
deriving DecidableEq

/-- The `Union[dict, FlightRecommendation, HotelRecommendation, TravelPlan]`
return type of `handle_query`: a typed record, or a Python dict (guardrail
and error results). -/
inductive HandleResult where
  | flightRec (r : FlightRecommendation)
  | hotelRec (r : HotelRecommendation)
  | planRec (r : TravelPlan)
  | pyDict (d : List (String × DVal))
deriving DecidableEq

/-- An exception escaping `handle_query` uncaught. -/
inductive PyErr where
  | transportError
  | indexError
deriving DecidableEq

instance {ε α : Type} [DecidableEq ε] [DecidableEq α] : DecidableEq (Except ε α) := fun x y =>
  match x, y with
  | .ok a, .ok b =>
    if h : a = b then .isTrue (by rw [h]) else .isFalse (fun hh => h (by injection hh))
  | .error a, .error b =>
    if h : a = b then .isTrue (by rw [h]) else .isFalse (fun hh => h (by injection hh))
  | .ok _, .error _ => .isFalse (fun hh => Except.noConfusion hh)
  | .error _, .ok _ => .isFalse (fun hh => Except.noConfusion hh)

/-- What one `handle_query` invocation produced: its return value or escaped
exception, how many gateway calls it issued, and the context object as the
call leaves it. -/
structure HandleOutcome where
  result : Except PyErr HandleResult
  gatewayCalls : Nat
  finalContext : UserContext
deriving DecidableEq

/-- Render the optional suggested budget into the guardrail dict. -/
def optDVal : Option PyNum → DVal
  | some q => .num q
  | none => .noneV

/-- The guardrail-tagged dict the source returns on a blocked budget. -/
def guardrailDict (ba : BudgetAnalysis) : List (String × DVal) :=
  [("type", .s "guardrail"), ("reasoning", .s ba.reasoning),
   ("suggested_budget", optDVal ba.suggested_budget)]

/-- Stringification of a ValidationError: the collected problems, one per line
header, summarised as a single string. -/
def renderErrs (es : List String) : String := String.intercalate "; " es

/-- The error-tagged dict the source returns on a main-path ValidationError.
It carries the stringified error only — the raw completion text is printed,
not returned. -/
def errorDict (e : List String) : List (String × DVal) :=
  [("type", .s "error"), ("error", .s (renderErrs e))]

/-- The guardrail block of `handle_query` (its first `try`): call the
gateway, sanitize, validate `BudgetAnalysis`; produce the guardrail dict when
the budget is judged unrealistic, and `none` — meaning "fall through to the
main request" — both on a realistic budget and on any swallowed exception. -/
def guardrailStage (gw : Gateway) (query : String) : Option (List (String × DVal)) :=
  match gw 0 (build_budget_check_prompt query) with
  | .err => none
  | .ok content =>
    match sanitizeV5 content with
    | none => none
    | some gj =>
      match budgetValidateJson gj with
      | .error _ => none
      | .ok ba => if ba.is_realistic then none else some (guardrailDict ba)

/-- Did the guardrail block fail (gateway raise, sanitization `IndexError`,
or validation error), so that the source printed and fell through? -/
def guardrailPathFails (gw : Gateway) (query : String) : Bool :=
  match gw 0 (build_budget_check_prompt query) with
  | .err => true
  | .ok content =>
    match sanitizeV5 content with
    | none => true
    | some gj =>
      match budgetValidateJson gj with
      | .error _ => true
      | .ok _ => false

/-- Wrap a validated record into the return union.  The budget case is
unreachable from the main path, since `route` never selects it. -/
def wrapRecord : ParsedRecord → HandleResult
  | .flightR r => .flightRec r
  | .hotelR r => .hotelRec r
  | .planR r => .planRec r
  | .budgetR _ => .pyDict []

/-- The routing plus main-request block of `handle_query` (lines 117-143 of
`v5_guardrails_and_context.py`).  Its `except` clause catches only
`ValidationError`: a gateway error or a sanitization `IndexError` escapes. -/
def mainStage (gw : Gateway) (query : String) (ctx : UserContext) : Except PyErr HandleResult :=
  match gw 1 (build_prompt (route query) query ctx) with
  | .err => .error .transportError
  | .ok content =>
    match sanitizeV5 content with
    | none => .error .indexError
    | some out =>
      match modelValidateJson (route query) out with
      | .ok r => .ok (wrapRecord r)
      | .error e => .ok (.pyDict (errorDict e))

/-- The `handle_query` function of `v5_guardrails_and_context.py`: guardrail gate first —
returning its dict immediately on a block, after a single gateway call —
otherwise route, build the prompt, issue the main call, sanitize, validate. -/
def handle_query (gw : Gateway) (query : String) (ctx : UserContext) : HandleOutcome :=
  match guardrailStage gw query with
  | some d => ⟨.ok (.pyDict d), 1, ctx⟩
  | none => ⟨mainStage gw query ctx, 2, ctx⟩



/-! ## Helper lemmas

Facts about trimming, the fence strippers, and what the JSON parser consumes:
a successful parse consumes a nonempty prefix whose final character is
neither whitespace nor a backtick (it is a closing brace/bracket/quote, a
digit, or a letter of a literal).  These are what make the sanitizers
harmless on fenced well-formed JSON. -/

theorem head?_dropWhile_false (p : Char → Bool) (l : List Char) {c : Char}
    (h : (l.dropWhile p).head? = some c) : p c = false := by
  have hm := List.head?_dropWhile_not p l
  rw [h] at hm
  exact hm

theorem getLast?_rdropWhile_false (p : Char → Bool) (l : List Char) {c : Char}
    (h : (l.rdropWhile p).getLast? = some c) : p c = false := by
  have h2 : (l.reverse.dropWhile p).head? = some c := by
    rw [← List.reverse_reverse (l.reverse.dropWhile p), List.head?_reverse]
    exact h
  exact head?_dropWhile_false p l.reverse h2

theorem dropWhile_eq_self_of_head? (p : Char → Bool) (l : List Char)
    (h : ∀ c, l.head? = some c → p c = false) : l.dropWhile p = l := by
  cases l with
  | nil => rfl
  | cons a t =>
    have := h a rfl
    simp [List.dropWhile_cons, this]

theorem rdropWhile_eq_self_of_getLast? (p : Char → Bool) (l : List Char)
    (h : ∀ c, l.getLast? = some c → p c = false) : l.rdropWhile p = l := by
  apply List.rdropWhile_eq_self_iff.mpr
  intro hl
  have h1 : l.getLast? = some (l.getLast hl) := List.getLast?_eq_getLast_of_ne_nil hl
  have h2 := h _ h1
  simp [h2]

theorem trimL_head?_not_ws {l : List Char} {c : Char}
    (h : (trimL l).head? = some c) : wsC c = false := by
  unfold trimL at h
  obtain ⟨t, ht⟩ := List.rdropWhile_prefix wsC (l.dropWhile wsC)
  cases hx : (l.dropWhile wsC).rdropWhile wsC with
  | nil => rw [hx] at h; cases h
  | cons a x =>
    rw [hx] at h
    have ha : a = c := by injection h
    rw [hx] at ht
    have : (l.dropWhile wsC).head? = some c := by rw [← ht, ha]; rfl
    exact head?_dropWhile_false wsC l this

theorem trimL_getLast?_not_ws {l : List Char} {c : Char}
    (h : (trimL l).getLast? = some c) : wsC c = false :=
  getLast?_rdropWhile_false wsC _ h

theorem trimL_idem (l : List Char) : trimL (trimL l) = trimL l := by
  have h1 : (trimL l).dropWhile wsC = trimL l :=
    dropWhile_eq_self_of_head? _ _ (fun _ hc => trimL_head?_not_ws hc)
  have h2 : (trimL l).rdropWhile wsC = trimL l :=
    rdropWhile_eq_self_of_getLast? _ _ (fun _ hc => trimL_getLast?_not_ws hc)
  calc trimL (trimL l) = ((trimL l).dropWhile wsC).rdropWhile wsC := rfl
  _ = (trimL l).rdropWhile wsC := by rw [h1]
  _ = trimL l := h2

theorem rdropWhile_append_all (p : Char → Bool) (l t : List Char)
    (ht : ∀ c ∈ t, p c = true) : (l ++ t).rdropWhile p = l.rdropWhile p := by
  induction t using List.reverseRecOn with
  | nil => simp
  | append_singleton t x ih =>
    rw [← List.append_assoc, List.rdropWhile_concat_pos]
    · exact ih (fun c hc => ht c (List.mem_append_left _ hc))
    · exact ht x (by simp)

theorem rdropWhile_append_last (p : Char → Bool) (l t : List Char) {c : Char}
    (ht : t.getLast? = some c) (hc : p c = false) :
    (l ++ t).rdropWhile p = l ++ t := by
  have hne : t ≠ [] := by intro hx; rw [hx] at ht; cases ht
  apply List.rdropWhile_eq_self_iff.mpr
  intro hl
  have h1 : (l ++ t).getLast hl = t.getLast hne := List.getLast_append' l t hne
  have h2 : t.getLast hne = c := by
    have hx := List.getLast?_eq_getLast_of_ne_nil hne
    rw [ht] at hx
    injection hx with hx
    exact hx.symm
  rw [h1, h2, hc]
  simp

theorem getLast?_takeWhile_sat (p : Char → Bool) (l : List Char)
    (h : l.takeWhile p ≠ []) :
    ∃ c, (l.takeWhile p).getLast? = some c ∧ p c = true :=
  ⟨(l.takeWhile p).getLast h, List.getLast?_eq_getLast_of_ne_nil h,
    List.mem_takeWhile_imp (List.getLast_mem h)⟩

theorem digitC_not_ws_tick {c : Char} (h : digitC c = true) : wsC c = false ∧ c ≠ '`' := by
  unfold digitC at h
  simp only [Bool.and_eq_true, decide_eq_true_eq] at h
  constructor
  · unfold wsC
    have e1 : (c == ' ') = false := by
      apply beq_eq_false_iff_ne.mpr; rintro rfl; revert h; decide
    have e2 : (c == '\t') = false := by
      apply beq_eq_false_iff_ne.mpr; rintro rfl; revert h; decide
    have e3 : (c == '\n') = false := by
      apply beq_eq_false_iff_ne.mpr; rintro rfl; revert h; decide
    have e4 : (c == '\r') = false := by
      apply beq_eq_false_iff_ne.mpr; rintro rfl; revert h; decide
    rw [e1, e2, e3, e4]
    rfl
  · rintro rfl
    revert h
    decide

/-! ## Claim theorems -/

set_option maxRecDepth 8000

/-- If the guardrail pre-check fails anywhere — gateway raise, sanitization
`IndexError`, or validation error — the stage produces no block. -/
theorem guardrailStage_eq_none_of_fails (gw : Gateway) (query : String)
    (h : guardrailPathFails gw query = true) : guardrailStage gw query = none := by
  unfold guardrailPathFails at h
  unfold guardrailStage
  cases h0 : gw 0 (build_budget_check_prompt query) with
  | err => rfl
  | ok content =>
    rw [h0] at h
    dsimp only at h ⊢
    cases h1 : sanitizeV5 content with
    | none => rfl
    | some gj =>
      rw [h1] at h
      dsimp only at h ⊢
      cases h2 : budgetValidateJson gj with
      | error e => rfl
      | ok ba => rw [h2] at h; dsimp only at h; cases h

/-- C1: whenever the guardrail completion sanitizes and validates as a
`BudgetAnalysis` with `is_realistic = false`, `handle_query` returns the
guardrail-tagged dict carrying that reasoning and suggested budget, and the
main request is skipped: exactly one gateway call is issued. -/
theorem guardrail_block_short_circuits (gw : Gateway) (query : String) (ctx : UserContext)
    (content gj : String) (ba : BudgetAnalysis)
    (hgw : gw 0 (build_budget_check_prompt query) = .ok content)
    (hsan : sanitizeV5 content = some gj)
    (hval : budgetValidateJson gj = .ok ba)
    (hreal : ba.is_realistic = false) :
    handle_query gw query ctx =
      ⟨.ok (.pyDict [("type", .s "guardrail"), ("reasoning", .s ba.reasoning),
        ("suggested_budget", optDVal ba.suggested_budget)]), 1, ctx⟩ := by
  unfold handle_query guardrailStage
  rw [hgw]
  dsimp only
  rw [hsan]
  dsimp only
  rw [hval]
  dsimp only
  rw [hreal]
  simp [guardrailDict]

/-- Witness for C1: a concrete blocked run — one gateway call, a guardrail
dict carrying the parsed reasoning and suggested budget. -/
theorem guardrail_block_short_circuits_witness :
    handle_query
        (fun _ _ => .ok "\x7b\"is_realistic\": false, \"reasoning\": \"too low\", \"suggested_budget\": 1500\x7d")
        "I want to go to India for 500 dollars"
        ⟨"user123", ["SkyWays", "OceanAir"], ["WiFi", "Pool"], "mid-range", "2024-01-01"⟩ =
      ⟨.ok (.pyDict [("type", .s "guardrail"), ("reasoning", .s "too low"),
        ("suggested_budget", optDVal (some (intNum 1500)))]), 1,
        ⟨"user123", ["SkyWays", "OceanAir"], ["WiFi", "Pool"], "mid-range", "2024-01-01"⟩⟩ :=
  guardrail_block_short_circuits _ _ _
    "\x7b\"is_realistic\": false, \"reasoning\": \"too low\", \"suggested_budget\": 1500\x7d"
    "\x7b\"is_realistic\": false, \"reasoning\": \"too low\", \"suggested_budget\": 1500\x7d"
    ⟨false, "too low", some (intNum 1500)⟩ rfl rfl rfl rfl

/-- C2: any failure in the guardrail path (gateway raise, sanitization
`IndexError`, or `BudgetAnalysis` validation failure) is swallowed —
`handle_query` proceeds to intent routing and the main request, returning
exactly what the main stage produces, with both gateway calls issued and no
guardrail-failure error surfaced. -/
theorem guardrail_failure_fails_open (gw : Gateway) (query : String) (ctx : UserContext)
    (h : guardrailPathFails gw query = true) :
    (handle_query gw query ctx).result = mainStage gw query ctx ∧
    (handle_query gw query ctx).gatewayCalls = 2 := by
  have hn := guardrailStage_eq_none_of_fails gw query h
  unfold handle_query
  rw [hn]
  exact ⟨rfl, rfl⟩

/-- Witness for C2: a gateway that raises on the guardrail call; the main
request still runs and its validated plan is returned. -/
theorem guardrail_failure_fails_open_witness :
    (handle_query
        (fun i _ => if i = 0 then GwResult.err
          else .ok "\x7b\"destination\": \"Miami\", \"duration_days\": 5, \"budget\": 2000, \"activities\": [\"beach\"], \"notes\": \"pack light\"\x7d")
        "plan my trip" ⟨"u1", [], [], "mid-range", "t0"⟩).result =
      mainStage
        (fun i _ => if i = 0 then GwResult.err
          else .ok "\x7b\"destination\": \"Miami\", \"duration_days\": 5, \"budget\": 2000, \"activities\": [\"beach\"], \"notes\": \"pack light\"\x7d")
        "plan my trip" ⟨"u1", [], [], "mid-range", "t0"⟩ ∧
    (handle_query
        (fun i _ => if i = 0 then GwResult.err
          else .ok "\x7b\"destination\": \"Miami\", \"duration_days\": 5, \"budget\": 2000, \"activities\": [\"beach\"], \"notes\": \"pack light\"\x7d")
        "plan my trip" ⟨"u1", [], [], "mid-range", "t0"⟩).gatewayCalls = 2 :=
  guardrail_failure_fails_open _ _ _ rfl

/-- C3: the routing policy — a query containing `flight` (case-insensitively)
selects the flight schema, else one containing `hotel` selects the hotel
schema, else the travel plan is the default; routing is total and a query
containing both keywords routes to the flight schema. -/
theorem route_keyword_policy (q : String) :
    (containsSub (lowerS q) "flight" = true → route q = .flight) ∧
    (containsSub (lowerS q) "flight" = false → containsSub (lowerS q) "hotel" = true →
      route q = .hotel) ∧
    (containsSub (lowerS q) "flight" = false → containsSub (lowerS q) "hotel" = false →
      route q = .plan) := by
  refine ⟨fun h => ?_, fun h1 h2 => ?_, fun h1 h2 => ?_⟩
  · simp [route, h]
  · simp [route, h1, h2]
  · simp [route, h1, h2]

/-- Witness for C3: a query containing both keywords routes to the flight
schema. -/
theorem route_keyword_policy_witness :
    containsSub (lowerS "Find me a Flight and a hotel in Rome") "hotel" = true ∧
    route "Find me a Flight and a hotel in Rome" = .flight :=
  ⟨rfl, (route_keyword_policy "Find me a Flight and a hotel in Rome").1 rfl⟩

/-- Counterexample to C5: neither fence-stripping strategy is idempotent.
Re-sanitizing strips a second `json` header (v5) or a second opening fence
(v2) that the first pass exposed. -/
theorem sanitize_not_idempotent :
    sanitizeV5 "json\njson\n\x7b\x7d" = some "json\n\x7b\x7d" ∧
    sanitizeV5 "json\n\x7b\x7d" = some "\x7b\x7d" ∧
    ("json\n\x7b\x7d" : String) ≠ "\x7b\x7d" ∧
    sanitizeV2 "```json\n```json\n\x7b\x7d```" = "```json\n\x7b\x7d" ∧
    sanitizeV2 "```json\n\x7b\x7d" = "\x7b\x7d" ∧
    ("```json\n\x7b\x7d" : String) ≠ "\x7b\x7d" :=
  ⟨rfl, rfl, by decide, rfl, rfl, by decide⟩

/-- Counterexample to C6: a gateway/transport error on the main request is
not caught (`except` covers only `ValidationError`), so `handle_query`
terminates with an escaped exception rather than a tagged result. -/
theorem main_transport_error_escapes :
    (handle_query (fun _ _ => GwResult.err) "plan my trip"
        ⟨"user123", [], [], "mid-range", "t0"⟩).result = .error .transportError := rfl

/-- C6 (amended): when the main gateway call returns text whose sanitization
succeeds, `handle_query` returns a tagged result value — guardrail dict,
typed record, or error dict — and no exception escapes. -/
theorem no_escape_when_main_call_succeeds (gw : Gateway) (q : String) (ctx : UserContext)
    (c : String)
    (hgw : gw 1 (build_prompt (route q) q ctx) = .ok c)
    (hsan : sanitizeV5 c ≠ none) :
    ∃ r, (handle_query gw q ctx).result = .ok r := by
  unfold handle_query
  cases hg : guardrailStage gw q with
  | some d => exact ⟨.pyDict d, rfl⟩
  | none =>
    dsimp only
    unfold mainStage
    rw [hgw]
    dsimp only
    cases hs : sanitizeV5 c with
    | none => exact absurd hs hsan
    | some out =>
      dsimp only
      cases hv : modelValidateJson (route q) out with
      | ok r => exact ⟨wrapRecord r, rfl⟩
      | error e => exact ⟨.pyDict (errorDict e), rfl⟩

/-- Witness for C6 (amended): a run whose main completion sanitizes — the
result is a tagged value even though validation fails. -/
theorem no_escape_when_main_call_succeeds_witness :
    ∃ r, (handle_query (fun i _ => if i = 0 then GwResult.err else .ok "\x7b\x7d")
        "plan my trip" ⟨"u1", [], [], "mid-range", "t0"⟩).result = .ok r :=
  no_escape_when_main_call_succeeds _ _ _ "\x7b\x7d" rfl (by decide)

/-- Counterexample to C7: on a main-request validation failure the source
returns a dict holding only `type` and `error` — the raw completion text is
printed, not returned, so no `raw` key exists. -/
theorem error_result_lacks_raw :
    (handle_query (fun i _ => if i = 0 then GwResult.err else .ok "\x7b\x7d")
        "plan my trip" ⟨"u1", [], [], "mid-range", "t0"⟩).result =
      .ok (.pyDict [("type", DVal.s "error"),
        ("error", DVal.s "destination: Field required; duration_days: Field required; budget: Field required; activities: Field required; notes: Field required")]) ∧
    List.lookup "raw"
      [("type", DVal.s "error"),
        ("error", DVal.s "destination: Field required; duration_days: Field required; budget: Field required; activities: Field required; notes: Field required")] =
      none :=
  ⟨rfl, rfl⟩

/-- C7 (amended): whenever validation of the main request's output fails,
`handle_query` returns the error-tagged dict `[type, error]` carrying the
stringified failure detail, and that dict has no `raw` entry. -/
theorem validation_failure_error_dict (gw : Gateway) (q : String) (ctx : UserContext)
    (c out : String) (e : List String)
    (hpass : guardrailStage gw q = none)
    (hgw : gw 1 (build_prompt (route q) q ctx) = .ok c)
    (hsan : sanitizeV5 c = some out)
    (hval : modelValidateJson (route q) out = .error e) :
    (handle_query gw q ctx).result =
      .ok (.pyDict [("type", .s "error"), ("error", .s (renderErrs e))]) ∧
    List.lookup "raw" [("type", DVal.s "error"), ("error", DVal.s (renderErrs e))] = none := by
  unfold handle_query
  rw [hpass]
  dsimp only
  unfold mainStage
  rw [hgw]
  dsimp only
  rw [hsan]
  dsimp only
  rw [hval]
  exact ⟨rfl, rfl⟩

/-- Witness for C7 (amended): a concrete failing validation yields the
two-entry error dict. -/
theorem validation_failure_error_dict_witness :
    (handle_query (fun i _ => if i = 0 then GwResult.err else .ok "\x7b\"destination\": 7\x7d")
        "plan my trip" ⟨"u1", [], [], "mid-range", "t0"⟩).result =
      .ok (.pyDict [("type", .s "error"),
        ("error", .s (renderErrs
          ["destination: Input should be a valid string", "duration_days: Field required",
            "budget: Field required", "activities: Field required", "notes: Field required"]))]) ∧
    List.lookup "raw"
      [("type", DVal.s "error"),
        ("error", DVal.s (renderErrs
          ["destination: Input should be a valid string", "duration_days: Field required",
            "budget: Field required", "activities: Field required", "notes: Field required"]))] =
      none :=
  validation_failure_error_dict _ _ _ "\x7b\"destination\": 7\x7d" "\x7b\"destination\": 7\x7d" _
    rfl rfl rfl rfl

/-- Counterexample to C8: a negative `price` passes `FlightRecommendation`
validation — the source declares the field as a bare `float` with no
non-negativity constraint. -/
theorem negative_price_accepted :
    modelValidateJson .flight
        "\x7b\"airline\": \"Delta\", \"departure_time\": \"9am\", \"arrival_time\": \"11am\", \"price\": -5, \"direct_flight\": true, \"recommendation_reason\": \"cheap\"\x7d" =
      .ok (.flightR ⟨"Delta", "9am", "11am", intNum (-5), true, "cheap"⟩) := rfl

/-- C8 (amended): validation enforces no sign or positivity constraints —
negative `price`, `price_per_night`, `budget`, `suggested_budget`, and a
non-positive `duration_days` are all accepted. -/
theorem numeric_fields_unconstrained :
    modelValidateJson .flight
        "\x7b\"airline\": \"A\", \"departure_time\": \"9\", \"arrival_time\": \"11\", \"price\": -5.5, \"direct_flight\": false, \"recommendation_reason\": \"r\"\x7d" =
      .ok (.flightR ⟨"A", "9", "11", ⟨-55, 10⟩, false, "r"⟩) ∧
    modelValidateJson .hotel
        "\x7b\"name\": \"H\", \"location\": \"L\", \"price_per_night\": -10, \"amenities\": [], \"recommendation_reason\": \"r\"\x7d" =
      .ok (.hotelR ⟨"H", "L", intNum (-10), [], "r"⟩) ∧
    modelValidateJson .plan
        "\x7b\"destination\": \"D\", \"duration_days\": -3, \"budget\": -100, \"activities\": [], \"notes\": \"n\"\x7d" =
      .ok (.planR ⟨"D", -3, intNum (-100), [], "n"⟩) ∧
    budgetValidateJson
        "\x7b\"is_realistic\": false, \"reasoning\": \"r\", \"suggested_budget\": -1500\x7d" =
      .ok ⟨false, "r", some (intNum (-1500))⟩ :=
  ⟨rfl, rfl, rfl, rfl⟩

/-- C9: `handle_query` never mutates the supplied context — the context
object leaves the call exactly as it entered, every field unchanged. -/
theorem context_read_only (gw : Gateway) (q : String) (ctx : UserContext) :
    (handle_query gw q ctx).finalContext = ctx ∧
    (handle_query gw q ctx).finalContext.user_id = ctx.user_id ∧
    (handle_query gw q ctx).finalContext.preferred_airlines = ctx.preferred_airlines ∧
    (handle_query gw q ctx).finalContext.hotel_amenities = ctx.hotel_amenities ∧
    (handle_query gw q ctx).finalContext.budget_level = ctx.budget_level ∧
    (handle_query gw q ctx).finalContext.session_start = ctx.session_start := by
  unfold handle_query
  cases guardrailStage gw q <;> exact ⟨rfl, rfl, rfl, rfl, rfl, rfl⟩

/-- C10: field type checking at the public interface is lax — a JSON integer
or a numeric JSON string where `float` is declared both validate, coerced to
the same numeric value. -/
theorem lax_price_coercion :
    modelValidateJson .flight
        "\x7b\"airline\": \"Delta\", \"departure_time\": \"9am\", \"arrival_time\": \"11am\", \"price\": 450, \"direct_flight\": true, \"recommendation_reason\": \"cheap\"\x7d" =
      .ok (.flightR ⟨"Delta", "9am", "11am", intNum 450, true, "cheap"⟩) ∧
    modelValidateJson .flight
        "\x7b\"airline\": \"Delta\", \"departure_time\": \"9am\", \"arrival_time\": \"11am\", \"price\": \"450\", \"direct_flight\": true, \"recommendation_reason\": \"cheap\"\x7d" =
      .ok (.flightR ⟨"Delta", "9am", "11am", intNum 450, true, "cheap"⟩) :=
  ⟨rfl, rfl⟩

end TravelAgent

namespace TravelAgent

theorem getLast?_append_keep (xs pre : List Char) {c : Char} (h : pre.getLast? = some c) :
    (xs ++ pre).getLast? = some c := by
  rw [List.getLast?_append_of_ne_nil]
  · exact h
  · intro hp
    rw [hp] at h
    cases h

theorem strBody_consumed (cs : List Char) :
    ∀ sl rest, strBody cs = some (sl, rest) →
      ∃ pre, cs = pre ++ rest ∧ pre.getLast? = some '"' := by
  induction cs using strBody.induct with
  | case1 =>
    intro sl rest h
    cases h
  | case2 r2 =>
    intro sl rest h
    simp [strBody.eq_def] at h
    exact ⟨['"'], by simp [h.2], rfl⟩
  | case3 hne =>
    intro sl rest h
    simp [strBody.eq_def] at h
  | case4 a b x d rest3 va vb vx vd hd hx hb ha hne ih =>
    intro sl rest h
    rw [strBody.eq_def] at h
    simp [ha, hb, hx, hd] at h
    obtain ⟨s1, hs, hsl⟩ := h
    obtain ⟨pre, hp, hlast⟩ := ih _ _ hs
    refine ⟨['\\', 'u', a, b, x, d] ++ pre, ?_, getLast?_append_keep _ _ hlast⟩
    rw [List.append_assoc, ← hp]
    rfl
  | case5 a b x d rest3 hnone hne =>
    intro sl rest h
    rw [strBody.eq_def] at h
    simp at h
  | case6 rest2 hshape hne =>
    intro sl rest h
    rw [strBody.eq_def] at h
    rcases rest2 with _ | ⟨a, _ | ⟨b, _ | ⟨x, _ | ⟨d, r3⟩⟩⟩⟩
    · simp at h
    · simp at h
    · simp at h
    · simp at h
    · exact absurd (hshape a b x d r3 rfl) (fun hf => hf)
  | case7 e rest2 hnu ch hesc hne ih =>
    intro sl rest h
    rw [strBody.eq_def] at h
    simp [hnu, hesc] at h
    obtain ⟨s1, hs, hsl⟩ := h
    obtain ⟨pre, hp, hlast⟩ := ih _ _ hs
    refine ⟨['\\', e] ++ pre, ?_, getLast?_append_keep _ _ hlast⟩
    rw [List.append_assoc, ← hp]
    rfl
  | case8 e rest2 hnu hesc hne =>
    intro sl rest h
    rw [strBody.eq_def] at h
    simp [hnu, hesc] at h
  | case9 e rest2 hq hb hlt =>
    intro sl rest h
    rw [strBody.eq_def] at h
    simp [hq, hb, hlt] at h
  | case10 e rest1 hq hb hlt ih =>
    intro sl rest h
    rw [strBody.eq_def] at h
    simp [hq, hb, hlt] at h
    obtain ⟨s1, hs, hsl⟩ := h
    obtain ⟨pre, hp, hlast⟩ := ih _ _ hs
    refine ⟨[e] ++ pre, ?_, getLast?_append_keep _ _ hlast⟩
    rw [List.append_assoc, ← hp]
    rfl

end TravelAgent

namespace TravelAgent

theorem numExpSign_split (r : List Char) : ∃ a, r = a ++ (numExpSign r).2 := by
  cases r with
  | nil => exact ⟨[], rfl⟩
  | cons c t =>
    by_cases h1 : c = '+'
    · subst h1
      exact ⟨['+'], by simp [numExpSign]⟩
    · by_cases h2 : c = '-'
      · subst h2
        exact ⟨['-'], by simp [numExpSign]⟩
      · exact ⟨[], by simp [numExpSign, h1, h2]⟩

theorem numExpDigits_consumed (neg : Bool) (i f r : List Char) (q : PyNum) (rest : List Char)
    (h : numExpDigits neg i f r = some (q, rest)) :
    ∃ pre c, r = pre ++ rest ∧ pre.getLast? = some c ∧ digitC c = true := by
  simp only [numExpDigits] at h
  cases he : ((numExpSign r).2.takeWhile digitC).isEmpty with
  | true => rw [he] at h; simp at h
  | false =>
    rw [he] at h
    simp at h
    obtain ⟨hq, hrest⟩ := h
    obtain ⟨a, ha⟩ := numExpSign_split r
    have htw : (numExpSign r).2.takeWhile digitC ≠ [] := by
      intro hx
      rw [hx] at he
      simp at he
    obtain ⟨c, hlast, hdig⟩ := getLast?_takeWhile_sat digitC _ htw
    refine ⟨a ++ (numExpSign r).2.takeWhile digitC, c, ?_, getLast?_append_keep _ _ hlast, hdig⟩
    rw [List.append_assoc, ← hrest, List.takeWhile_append_dropWhile]
    exact ha

theorem numExpTail_consumed (neg : Bool) (i f cs : List Char) (q : PyNum) (rest : List Char)
    (h : numExpTail neg i f cs = some (q, rest)) :
    cs = rest ∨ ∃ pre c, cs = pre ++ rest ∧ pre.getLast? = some c ∧ digitC c = true := by
  cases cs with
  | nil =>
    left
    simp only [numExpTail, Option.some.injEq, Prod.mk.injEq] at h
    exact h.2
  | cons c r =>
    simp only [numExpTail] at h
    by_cases hce : c = 'e' ∨ c = 'E'
    · rw [if_pos hce] at h
      right
      obtain ⟨pre, d, hp, hlast, hdig⟩ := numExpDigits_consumed neg i f r q rest h
      exact ⟨c :: pre, d, by rw [hp]; rfl, getLast?_append_keep [c] _ hlast, hdig⟩
    · rw [if_neg hce] at h
      simp only [Option.some.injEq, Prod.mk.injEq] at h
      left
      exact h.2

theorem numTail_consumed (neg : Bool) (i cs : List Char) (q : PyNum) (rest : List Char)
    (h : numTail neg i cs = some (q, rest)) :
    cs = rest ∨ ∃ pre c, cs = pre ++ rest ∧ pre.getLast? = some c ∧ digitC c = true := by
  cases cs with
  | nil =>
    left
    simp only [numTail] at h
    rcases numExpTail_consumed _ _ _ _ _ _ h with h1 | ⟨pre, c, hp, hlast, _⟩
    · exact h1
    · obtain ⟨rfl, rfl⟩ := List.append_eq_nil.mp hp.symm
      cases hlast
  | cons c r =>
    simp only [numTail] at h
    by_cases hc : c = '.'
    · rw [if_pos hc] at h
      subst hc
      cases hfe : (r.takeWhile digitC).isEmpty with
      | true => rw [hfe] at h; simp at h
      | false =>
        rw [hfe] at h
        simp at h
        have htw : r.takeWhile digitC ≠ [] := by
          intro hx
          rw [hx] at hfe
          simp at hfe
        obtain ⟨d, hlast, hdig⟩ := getLast?_takeWhile_sat digitC _ htw
        right
        rcases numExpTail_consumed _ _ _ _ _ _ h with h1 | ⟨pre2, d2, hp2, hlast2, hdig2⟩
        · refine ⟨'.' :: r.takeWhile digitC, d, ?_, getLast?_append_keep ['.'] _ hlast, hdig⟩
          rw [← h1]
          rw [show ('.' :: r.takeWhile digitC) ++ r.dropWhile digitC =
            '.' :: (r.takeWhile digitC ++ r.dropWhile digitC) from rfl]
          rw [List.takeWhile_append_dropWhile]
        · refine ⟨('.' :: r.takeWhile digitC) ++ pre2, d2, ?_,
            getLast?_append_keep _ _ hlast2, hdig2⟩
          rw [List.append_assoc, ← hp2]
          rw [show ('.' :: r.takeWhile digitC) ++ r.dropWhile digitC =
            '.' :: (r.takeWhile digitC ++ r.dropWhile digitC) from rfl]
          rw [List.takeWhile_append_dropWhile]
    · rw [if_neg hc] at h
      exact numExpTail_consumed _ _ _ _ _ _ h

theorem numIntPart_consumed (neg : Bool) (cs : List Char) (q : PyNum) (rest : List Char)
    (h : numIntPart neg cs = some (q, rest)) :
    ∃ pre c, cs = pre ++ rest ∧ pre.getLast? = some c ∧ digitC c = true := by
  cases cs with
  | nil => cases h
  | cons c t =>
    simp only [numIntPart] at h
    by_cases h0 : c = '0'
    · rw [if_pos h0] at h
      subst h0
      rcases numTail_consumed _ _ _ _ _ h with h1 | ⟨pre2, d, hp2, hlast2, hdig2⟩
      · exact ⟨['0'], '0', by rw [h1]; rfl, rfl, by decide⟩
      · exact ⟨'0' :: pre2, d, by rw [hp2]; rfl, getLast?_append_keep ['0'] _ hlast2, hdig2⟩
    · rw [if_neg h0] at h
      by_cases hd : digitC c
      · rw [if_pos hd] at h
        have htw : (c :: t).takeWhile digitC ≠ [] := by
          rw [List.takeWhile_cons, if_pos hd]
          intro hx
          cases hx
        obtain ⟨d, hlast, hdig⟩ := getLast?_takeWhile_sat digitC _ htw
        rcases numTail_consumed _ _ _ _ _ h with h1 | ⟨pre2, d2, hp2, hlast2, hdig2⟩
        · exact ⟨(c :: t).takeWhile digitC, d,
            by rw [← h1, List.takeWhile_append_dropWhile], hlast, hdig⟩
        · refine ⟨(c :: t).takeWhile digitC ++ pre2, d2, ?_,
            getLast?_append_keep _ _ hlast2, hdig2⟩
          rw [List.append_assoc, ← hp2, List.takeWhile_append_dropWhile]
      · rw [if_neg hd] at h
        cases h

theorem numLex_consumed (cs : List Char) (q : PyNum) (rest : List Char)
    (h : numLex cs = some (q, rest)) :
    ∃ pre c, cs = pre ++ rest ∧ pre.getLast? = some c ∧ digitC c = true := by
  cases cs with
  | nil => cases h
  | cons c t =>
    simp only [numLex] at h
    by_cases hm : c = '-'
    · rw [if_pos hm] at h
      obtain ⟨pre2, d, hp2, hlast2, hdig2⟩ := numIntPart_consumed _ _ _ _ h
      exact ⟨c :: pre2, d, by rw [hp2]; rfl, getLast?_append_keep [c] _ hlast2, hdig2⟩
    · rw [if_neg hm] at h
      exact numIntPart_consumed _ _ _ _ h

end TravelAgent

namespace TravelAgent

theorem parse_consumed (n : Nat) :
    (∀ cs v rest, parseJVal n cs = some (v, rest) →
      ∃ pre c, cs = pre ++ rest ∧ pre.getLast? = some c ∧ wsC c = false ∧ c ≠ '`') ∧
    (∀ cs fs rest, parseJFields n cs = some (fs, rest) →
      ∃ pre, cs = pre ++ rest ∧ pre.getLast? = some '}') ∧
    (∀ cs es rest, parseJElems n cs = some (es, rest) →
      ∃ pre, cs = pre ++ rest ∧ pre.getLast? = some ']') := by
  induction n with
  | zero =>
    refine ⟨?_, ?_, ?_⟩ <;>
      (intro cs a rest h; simp only [parseJVal, parseJFields, parseJElems] at h;
        exact Option.noConfusion h)
  | succ n ih =>
    obtain ⟨ihV, ihF, ihE⟩ := ih
    refine ⟨?_, ?_, ?_⟩
    · -- parseJVal (n + 1)
      intro cs v rest h
      cases cs with
      | nil =>
        simp only [parseJVal] at h
        exact Option.noConfusion h
      | cons c cs0 =>
        simp only [parseJVal] at h
        by_cases h1 : c = '{'
        · rw [if_pos h1] at h
          subst h1
          have hsplit : cs0.takeWhile wsC ++ cs0.dropWhile wsC = cs0 :=
            List.takeWhile_append_dropWhile wsC cs0
          split at h
          · rename_i r heq
            simp only [Option.some.injEq, Prod.mk.injEq] at h
            obtain ⟨hv, hr⟩ := h
            refine ⟨('{' :: cs0.takeWhile wsC) ++ ['}'], '}', ?_, List.getLast?_concat _,
              by decide, by decide⟩
            rw [← hr]
            conv_lhs => rw [← hsplit, heq]
            simp only [List.cons_append, List.append_assoc, List.singleton_append,
              List.nil_append]
          · rw [Option.map_eq_some'] at h
            obtain ⟨⟨fs, r2⟩, hf, hpair⟩ := h
            simp only [Prod.mk.injEq] at hpair
            obtain ⟨hv, hr⟩ := hpair
            obtain ⟨preF, hpF, hlastF⟩ := ihF _ _ _ hf
            refine ⟨('{' :: cs0.takeWhile wsC) ++ preF, '}', ?_,
              getLast?_append_keep _ _ hlastF, by decide, by decide⟩
            rw [← hr]
            conv_lhs => rw [← hsplit, hpF]
            simp only [List.cons_append, List.append_assoc]
        · rw [if_neg h1] at h
          by_cases h2 : c = '['
          · rw [if_pos h2] at h
            subst h2
            have hsplit : cs0.takeWhile wsC ++ cs0.dropWhile wsC = cs0 :=
              List.takeWhile_append_dropWhile wsC cs0
            split at h
            · rename_i r heq
              simp only [Option.some.injEq, Prod.mk.injEq] at h
              obtain ⟨hv, hr⟩ := h
              refine ⟨('[' :: cs0.takeWhile wsC) ++ [']'], ']', ?_, List.getLast?_concat _,
                by decide, by decide⟩
              rw [← hr]
              conv_lhs => rw [← hsplit, heq]
              simp only [List.cons_append, List.append_assoc, List.singleton_append,
              List.nil_append]
            · rw [Option.map_eq_some'] at h
              obtain ⟨⟨es, r2⟩, hf, hpair⟩ := h
              simp only [Prod.mk.injEq] at hpair
              obtain ⟨hv, hr⟩ := hpair
              obtain ⟨preE, hpE, hlastE⟩ := ihE _ _ _ hf
              refine ⟨('[' :: cs0.takeWhile wsC) ++ preE, ']', ?_,
                getLast?_append_keep _ _ hlastE, by decide, by decide⟩
              rw [← hr]
              conv_lhs => rw [← hsplit, hpE]
              simp only [List.cons_append, List.append_assoc]
          · rw [if_neg h2] at h
            by_cases h3 : c = '"'
            · rw [if_pos h3] at h
              subst h3
              rw [Option.map_eq_some'] at h
              obtain ⟨⟨sl, r2⟩, hs, hpair⟩ := h
              simp only [Prod.mk.injEq] at hpair
              obtain ⟨hv, hr⟩ := hpair
              obtain ⟨preS, hpS, hlastS⟩ := strBody_consumed _ _ _ hs
              refine ⟨'"' :: preS, '"', ?_, getLast?_append_keep ['"'] _ hlastS,
                by decide, by decide⟩
              rw [← hr, hpS]
              rfl
            · rw [if_neg h3] at h
              by_cases h4 : c = 't'
              · rw [if_pos h4] at h
                subst h4
                split at h
                · simp only [Option.some.injEq, Prod.mk.injEq] at h
                  obtain ⟨hv, hr⟩ := h
                  refine ⟨['t', 'r', 'u', 'e'], 'e', ?_, rfl, by decide, by decide⟩
                  rw [← hr]
                  rfl
                · cases h
              · rw [if_neg h4] at h
                by_cases h5 : c = 'f'
                · rw [if_pos h5] at h
                  subst h5
                  split at h
                  · simp only [Option.some.injEq, Prod.mk.injEq] at h
                    obtain ⟨hv, hr⟩ := h
                    refine ⟨['f', 'a', 'l', 's', 'e'], 'e', ?_, rfl, by decide, by decide⟩
                    rw [← hr]
                    rfl
                  · cases h
                · rw [if_neg h5] at h
                  by_cases h6 : c = 'n'
                  · rw [if_pos h6] at h
                    subst h6
                    split at h
                    · simp only [Option.some.injEq, Prod.mk.injEq] at h
                      obtain ⟨hv, hr⟩ := h
                      refine ⟨['n', 'u', 'l', 'l'], 'l', ?_, rfl, by decide, by decide⟩
                      rw [← hr]
                      rfl
                    · cases h
                  · rw [if_neg h6] at h
                    by_cases h7 : c = '-' ∨ digitC c
                    · rw [if_pos h7] at h
                      rw [Option.map_eq_some'] at h
                      obtain ⟨⟨q, r2⟩, hq, hpair⟩ := h
                      simp only [Prod.mk.injEq] at hpair
                      obtain ⟨hv, hr⟩ := hpair
                      obtain ⟨preN, d, hpN, hlastN, hdigN⟩ := numLex_consumed _ _ _ hq
                      obtain ⟨hws, htick⟩ := digitC_not_ws_tick hdigN
                      exact ⟨preN, d, by rw [← hr]; exact hpN, hlastN, hws, htick⟩
                    · rw [if_neg h7] at h
                      cases h
    · -- parseJFields (n + 1)
      intro cs fs rest h
      cases cs with
      | nil =>
        simp only [parseJFields] at h
        exact Option.noConfusion h
      | cons c cs0 =>
        simp only [parseJFields] at h
        split at h
        · rename_i cs0x heq
          obtain ⟨hc, hcs0⟩ : c = '"' ∧ cs0 = cs0x := by
            injection heq with hx hy
            exact ⟨hx, hy⟩
          subst hc
          subst hcs0
          split at h
          · cases h
          · rename_i k cs1 heqS
            obtain ⟨preS, hpS, hlastS⟩ := strBody_consumed _ _ _ heqS
            have hsplit1 : cs1.takeWhile wsC ++ cs1.dropWhile wsC = cs1 :=
              List.takeWhile_append_dropWhile wsC cs1
            split at h
            · rename_i cs2 heq1
              split at h
              · cases h
              · rename_i v cs3 heqV
                have hsplit2 : cs2.takeWhile wsC ++ cs2.dropWhile wsC = cs2 :=
                  List.takeWhile_append_dropWhile wsC cs2
                obtain ⟨preV, d, hpV, hlastV, hwsV, htickV⟩ := ihV _ _ _ heqV
                have hsplit3 : cs3.takeWhile wsC ++ cs3.dropWhile wsC = cs3 :=
                  List.takeWhile_append_dropWhile wsC cs3
                split at h
                · rename_i cs4 heq2
                  rw [Option.map_eq_some'] at h
                  obtain ⟨⟨fs2, r2⟩, hf2, hpair⟩ := h
                  simp only [Prod.mk.injEq] at hpair
                  obtain ⟨hv, hr⟩ := hpair
                  have hsplit4 : cs4.takeWhile wsC ++ cs4.dropWhile wsC = cs4 :=
                    List.takeWhile_append_dropWhile wsC cs4
                  obtain ⟨preF2, hpF2, hlastF2⟩ := ihF _ _ _ hf2
                  refine ⟨('"' :: preS ++ cs1.takeWhile wsC ++ [':'] ++ cs2.takeWhile wsC ++
                    preV ++ cs3.takeWhile wsC ++ [','] ++ cs4.takeWhile wsC) ++ preF2, ?_,
                    getLast?_append_keep _ _ hlastF2⟩
                  rw [← hr]
                  conv_lhs => rw [hpS, ← hsplit1, heq1, ← hsplit2, hpV, ← hsplit3, heq2,
                    ← hsplit4, hpF2]
                  simp only [List.cons_append, List.append_assoc, List.singleton_append,
              List.nil_append]
                · rename_i cs4 heq2
                  simp only [Option.some.injEq, Prod.mk.injEq] at h
                  obtain ⟨hv, hr⟩ := h
                  refine ⟨('"' :: preS ++ cs1.takeWhile wsC ++ [':'] ++ cs2.takeWhile wsC ++
                    preV ++ cs3.takeWhile wsC) ++ ['}'], ?_, List.getLast?_concat _⟩
                  rw [← hr]
                  conv_lhs => rw [hpS, ← hsplit1, heq1, ← hsplit2, hpV, ← hsplit3, heq2]
                  simp only [List.cons_append, List.append_assoc, List.singleton_append,
              List.nil_append]
                · cases h
            · cases h
        · cases h
    · -- parseJElems (n + 1)
      intro cs es rest h
      simp only [parseJElems] at h
      split at h
      · cases h
      · rename_i v cs1 heqV
        obtain ⟨preV, d, hpV, hlastV, hwsV, htickV⟩ := ihV _ _ _ heqV
        have hsplit1 : cs1.takeWhile wsC ++ cs1.dropWhile wsC = cs1 :=
          List.takeWhile_append_dropWhile wsC cs1
        split at h
        · rename_i cs2 heq1
          rw [Option.map_eq_some'] at h
          obtain ⟨⟨es2, r2⟩, he2, hpair⟩ := h
          simp only [Prod.mk.injEq] at hpair
          obtain ⟨hv, hr⟩ := hpair
          have hsplit2 : cs2.takeWhile wsC ++ cs2.dropWhile wsC = cs2 :=
            List.takeWhile_append_dropWhile wsC cs2
          obtain ⟨preE2, hpE2, hlastE2⟩ := ihE _ _ _ he2
          refine ⟨(preV ++ cs1.takeWhile wsC ++ [','] ++ cs2.takeWhile wsC) ++ preE2, ?_,
            getLast?_append_keep _ _ hlastE2⟩
          rw [← hr]
          conv_lhs => rw [hpV, ← hsplit1, heq1, ← hsplit2, hpE2]
          simp only [List.cons_append, List.append_assoc, List.singleton_append, List.nil_append]
        · rename_i cs2 heq1
          simp only [Option.some.injEq, Prod.mk.injEq] at h
          obtain ⟨hv, hr⟩ := h
          refine ⟨(preV ++ cs1.takeWhile wsC) ++ [']'], ?_, List.getLast?_concat _⟩
          rw [← hr]
          conv_lhs => rw [hpV, ← hsplit1, heq1]
          simp only [List.cons_append, List.append_assoc, List.singleton_append, List.nil_append]
        · cases h

end TravelAgent

namespace TravelAgent

theorem wsC_ne_tick {x : Char} (h : wsC x = true) : x ≠ '`' := by
  intro he
  subst he
  cases h

theorem dropWhile_append_all (p : Char → Bool) (a y : List Char)
    (ha : ∀ x ∈ a, p x = true) : (a ++ y).dropWhile p = y.dropWhile p := by
  induction a with
  | nil => rfl
  | cons c t ih =>
    rw [List.cons_append, List.dropWhile_cons, if_pos (ha c (by simp))]
    exact ih (fun x hx => ha x (by simp [hx]))

theorem rdropWhile_append_rtakeWhile (p : Char → Bool) (l : List Char) :
    l.rdropWhile p ++ l.rtakeWhile p = l := by
  rw [List.rdropWhile, List.rtakeWhile, ← List.reverse_append,
    List.takeWhile_append_dropWhile, List.reverse_reverse]

theorem trim_decomp (l : List Char) :
    ∃ a b, l = a ++ trimL l ++ b ∧ (∀ x ∈ a, wsC x = true) ∧ (∀ x ∈ b, wsC x = true) := by
  refine ⟨l.takeWhile wsC, (l.dropWhile wsC).rtakeWhile wsC, ?_,
    fun x hx => List.mem_takeWhile_imp hx, fun x hx => List.mem_rtakeWhile_imp hx⟩
  calc l = l.takeWhile wsC ++ l.dropWhile wsC := (List.takeWhile_append_dropWhile wsC l).symm
  _ = l.takeWhile wsC ++
      ((l.dropWhile wsC).rdropWhile wsC ++ (l.dropWhile wsC).rtakeWhile wsC) := by
    rw [rdropWhile_append_rtakeWhile]
  _ = (l.takeWhile wsC ++ trimL l) ++ (l.dropWhile wsC).rtakeWhile wsC :=
    (List.append_assoc _ _ _).symm

theorem trimL_prepend_ws (a t : List Char) (ha : ∀ x ∈ a, wsC x = true)
    (ht : trimL t = t) : trimL (a ++ t) = t := by
  unfold trimL
  rw [dropWhile_append_all wsC a t ha]
  exact ht

theorem jparse_some_facts (s : String) (v : JVal) (h : jparse s = some v) :
    trimL s.data ≠ [] ∧
      ∃ c, (trimL s.data).getLast? = some c ∧ wsC c = false ∧ c ≠ '`' := by
  simp only [jparse] at h
  split at h
  · rename_i v2 heq
    obtain ⟨pre, c, hpre, hlast, hws, htick⟩ := (parse_consumed _).1 _ _ _ heq
    rw [List.append_nil] at hpre
    rw [hpre]
    constructor
    · intro hx
      rw [hx] at hlast
      cases hlast
    · exact ⟨c, hlast, hws, htick⟩
  · cases h

theorem getLast?_of_decomp (l a t b : List Char) (hdec : l = a ++ t ++ b)
    (hb : ∀ x ∈ b, wsC x = true) {c : Char} (hlast : t.getLast? = some c)
    (htick : c ≠ '`') : ∃ e, l.getLast? = some e ∧ e ≠ '`' := by
  cases hbe : b with
  | nil =>
    subst hbe
    rw [List.append_nil] at hdec
    refine ⟨c, ?_, htick⟩
    rw [hdec]
    exact getLast?_append_keep a t hlast
  | cons x xs =>
    have hbne : b ≠ [] := by rw [hbe]; intro hx; cases hx
    refine ⟨b.getLast hbne, ?_, wsC_ne_tick (hb _ (List.getLast_mem hbne))⟩
    rw [hdec, List.getLast?_append_of_ne_nil _ hbne]
    exact List.getLast?_eq_getLast_of_ne_nil hbne

theorem stripTicksL_fence (l : List Char)
    (hle : ∃ e, l.getLast? = some e ∧ e ≠ '`') :
    stripTicksL (['`', '`', '`', 'j', 's', 'o', 'n', '\n'] ++ l ++ tick3) =
      ['j', 's', 'o', 'n', '\n'] ++ l := by
  obtain ⟨e, he, hetick⟩ := hle
  unfold stripTicksL
  have hdrop : (['`', '`', '`', 'j', 's', 'o', 'n', '\n'] ++ l ++ tick3).dropWhile tickC =
      ['j', 's', 'o', 'n', '\n'] ++ (l ++ tick3) := rfl
  rw [hdrop]
  have hre : ['j', 's', 'o', 'n', '\n'] ++ (l ++ tick3) =
      (['j', 's', 'o', 'n', '\n'] ++ l) ++ tick3 := (List.append_assoc _ _ _).symm
  rw [hre, rdropWhile_append_all tickC _ tick3 (by intro x hx; fin_cases hx <;> rfl)]
  apply rdropWhile_append_last tickC _ l he
  simp [tickC, hetick]

theorem trimL_fence (l : List Char) :
    trimL (['`', '`', '`', 'j', 's', 'o', 'n', '\n'] ++ l ++ tick3) =
      ['`', '`', '`', 'j', 's', 'o', 'n', '\n'] ++ l ++ tick3 := by
  unfold trimL
  have h1 : (['`', '`', '`', 'j', 's', 'o', 'n', '\n'] ++ l ++ tick3).dropWhile wsC =
      ['`', '`', '`', 'j', 's', 'o', 'n', '\n'] ++ l ++ tick3 := by
    apply dropWhile_eq_self_of_head?
    intro x hx
    simp only [List.cons_append, List.append_assoc, List.head?_cons,
      Option.some.injEq] at hx
    rw [← hx]
    rfl
  rw [h1]
  apply rdropWhile_append_last wsC _ tick3 (show tick3.getLast? = some '`' from rfl)
  rfl

theorem sanitizeV5L_fence (l : List Char)
    (hco : ∃ c, (trimL l).getLast? = some c ∧ wsC c = false ∧ c ≠ '`') :
    ∃ a, (∀ x ∈ a, wsC x = true) ∧ trimL (a ++ trimL l) = trimL l ∧
      sanitizeV5L (['`', '`', '`', 'j', 's', 'o', 'n', '\n'] ++ l ++ tick3) =
        some (a ++ trimL l) := by
  obtain ⟨c, hlast, hws, htick⟩ := hco
  obtain ⟨a, b, hdec, ha, hb⟩ := trim_decomp l
  have htrimt : trimL (trimL l) = trimL l := trimL_idem l
  have htrim_at : trimL (a ++ trimL l) = trimL l := trimL_prepend_ws a _ ha htrimt
  refine ⟨a, ha, htrim_at, ?_⟩
  unfold sanitizeV5L
  rw [trimL_fence l]
  -- step 2: the backtick strip removes exactly the fences
  have hlel : ∃ e, l.getLast? = some e ∧ e ≠ '`' :=
    getLast?_of_decomp l a (trimL l) b hdec hb hlast htick
  rw [stripTicksL_fence l hlel]
  -- step 3: the second trim trims only the tail whitespace of `l`
  have hE : ['j', 's', 'o', 'n', '\n'] ++ l =
      ((['j', 's', 'o', 'n', '\n'] ++ a) ++ trimL l) ++ b := by
    conv_lhs => rw [hdec]
    simp only [List.append_assoc]
  have e3 : trimL (['j', 's', 'o', 'n', '\n'] ++ l) =
      (['j', 's', 'o', 'n', '\n'] ++ a) ++ trimL l := by
    calc trimL (['j', 's', 'o', 'n', '\n'] ++ l)
        = (['j', 's', 'o', 'n', '\n'] ++ l).rdropWhile wsC := by
          unfold trimL
          rw [show (['j', 's', 'o', 'n', '\n'] ++ l).dropWhile wsC =
            ['j', 's', 'o', 'n', '\n'] ++ l from rfl]
    _ = (((['j', 's', 'o', 'n', '\n'] ++ a) ++ trimL l) ++ b).rdropWhile wsC :=
        congrArg (List.rdropWhile wsC) hE
    _ = ((['j', 's', 'o', 'n', '\n'] ++ a) ++ trimL l).rdropWhile wsC :=
        rdropWhile_append_all wsC _ b hb
    _ = (['j', 's', 'o', 'n', '\n'] ++ a) ++ trimL l :=
        rdropWhile_append_last wsC _ _ hlast hws
  rw [e3]
  -- step 4: the result starts with the word json, so the first line is dropped
  have e4 : ("json".data).isPrefixOf ((['j', 's', 'o', 'n', '\n'] ++ a) ++ trimL l) = true :=
    rfl
  have e5 : ((['j', 's', 'o', 'n', '\n'] ++ a) ++ trimL l).dropWhile (fun c => !(c == '\n')) =
      '\n' :: (a ++ trimL l) := rfl
  dsimp only
  rw [if_pos e4, e5]

theorem fenceSub_fence (l : List Char) :
    fenceSub (['`', '`', '`', 'j', 's', 'o', 'n', '\n'] ++ l ++ tick3) = l := by
  unfold fenceSub
  rw [show fenceTagAt (['`', '`', '`', 'j', 's', 'o', 'n', '\n'] ++ l ++ tick3) = true from rfl,
    if_pos (rfl : (true : Bool) = true)]
  dsimp only
  rw [show dropFenceTag (['`', '`', '`', 'j', 's', 'o', 'n', '\n'] ++ l ++ tick3) = l ++ tick3
    from rfl]
  have e3 : tick3.isSuffixOf (l ++ tick3) = true := by
    rw [List.isSuffixOf_iff_suffix]
    exact ⟨l, rfl⟩
  rw [e3, if_pos (rfl : (true : Bool) = true)]
  have e4 : (l ++ tick3).length - 3 = l.length := by
    simp [List.length_append, tick3]
  rw [e4]
  exact List.take_left' rfl

end TravelAgent

namespace TravelAgent

theorem jparse_of_trim_eq {s1 s2 : String} (h : trimL s1.data = trimL s2.data) :
    jparse s1 = jparse s2 := by
  unfold jparse
  rw [h]

theorem modelValidateJson_of_trim_eq (k : SchemaKind) {s1 s2 : String}
    (h : trimL s1.data = trimL s2.data) :
    modelValidateJson k s1 = modelValidateJson k s2 := by
  unfold modelValidateJson
  rw [jparse_of_trim_eq h]

/-- C4: fencing well-formed JSON for a schema inside a ```json block and
sanitizing — under either fence-stripping strategy of the source — yields
text whose validation outcome equals that of the unwrapped JSON. -/
theorem fenced_json_parses_like_raw (kind : SchemaKind) (j : String) (r : ParsedRecord)
    (hj : modelValidateJson kind j = .ok r) :
    (∃ s1, sanitizeV5 ("```json\n" ++ j ++ "```") = some s1 ∧
      modelValidateJson kind s1 = .ok r) ∧
    modelValidateJson kind (sanitizeV2 ("```json\n" ++ j ++ "```")) = .ok r := by
  have hv : ∃ v, jparse j = some v := by
    unfold modelValidateJson at hj
    cases hjp : jparse j with
    | none =>
      rw [hjp] at hj
      exact Except.noConfusion hj
    | some v => exact ⟨v, rfl⟩
  obtain ⟨v, hv⟩ := hv
  obtain ⟨htne, c, hlast, hws, htick⟩ := jparse_some_facts j v hv
  have hdata : ("```json\n" ++ j ++ "```").data =
      ['`', '`', '`', 'j', 's', 'o', 'n', '\n'] ++ j.data ++ tick3 := by
    rw [String.data_append, String.data_append]
    rfl
  obtain ⟨a, ha, htrim_at, hsan⟩ := sanitizeV5L_fence j.data ⟨c, hlast, hws, htick⟩
  constructor
  · refine ⟨(⟨a ++ trimL j.data⟩ : String), ?_, ?_⟩
    · unfold sanitizeV5
      rw [hdata, hsan]
      rfl
    · have heq : trimL ((⟨a ++ trimL j.data⟩ : String)).data = trimL j.data := htrim_at
      rw [modelValidateJson_of_trim_eq kind heq]
      exact hj
  · unfold sanitizeV2
    rw [hdata, trimL_fence, fenceSub_fence]
    have heq : trimL ((⟨trimL j.data⟩ : String)).data = trimL j.data := trimL_idem j.data
    rw [modelValidateJson_of_trim_eq kind heq]
    exact hj

/-- Witness for C4: a concrete travel-plan JSON document, wrapped in a
```json fence, sanitizes and validates to the same record under both
strategies. -/
theorem fenced_json_parses_like_raw_witness :
    (∃ s1, sanitizeV5 ("```json\n" ++
        "\x7b\"destination\": \"Miami\", \"duration_days\": 5, \"budget\": 2000, \"activities\": [\"beach\"], \"notes\": \"pack light\"\x7d"
        ++ "```") = some s1 ∧
      modelValidateJson .plan s1 =
        .ok (.planR ⟨"Miami", 5, intNum 2000, ["beach"], "pack light"⟩)) ∧
    modelValidateJson .plan (sanitizeV2 ("```json\n" ++
        "\x7b\"destination\": \"Miami\", \"duration_days\": 5, \"budget\": 2000, \"activities\": [\"beach\"], \"notes\": \"pack light\"\x7d"
        ++ "```")) =
      .ok (.planR ⟨"Miami", 5, intNum 2000, ["beach"], "pack light"⟩) :=
  fenced_json_parses_like_raw .plan
    "\x7b\"destination\": \"Miami\", \"duration_days\": 5, \"budget\": 2000, \"activities\": [\"beach\"], \"notes\": \"pack light\"\x7d"
    (.planR ⟨"Miami", 5, intNum 2000, ["beach"], "pack light"⟩) rfl

theorem fenceTagAt_false_of_head (l : List Char) (h : l.head? ≠ some '`') :
    fenceTagAt l = false := by
  cases l with
  | nil => rfl
  | cons c t =>
    unfold fenceTagAt
    split
    · rename_i heq
      injection heq with h1 h2
      subst h1
      exact absurd rfl h
    · rfl

/-- C5 (amended): each sanitizer acts as plain whitespace trimming on
pattern-free input — when the trimmed text neither starts nor ends with a
backtick and does not start with the word `json`, sanitizing returns exactly
the trimmed text, and re-sanitizing that output changes nothing. -/
theorem sanitize_trim_identity (s : String)
    (hhead : (trimL s.data).head? ≠ some '`')
    (hlast : (trimL s.data).getLast? ≠ some '`')
    (hjson : ("json".data).isPrefixOf (trimL s.data) = false) :
    sanitizeV5 s = some (⟨trimL s.data⟩ : String) ∧
    sanitizeV2 s = (⟨trimL s.data⟩ : String) ∧
    sanitizeV5 (⟨trimL s.data⟩ : String) = some (⟨trimL s.data⟩ : String) ∧
    sanitizeV2 (⟨trimL s.data⟩ : String) = (⟨trimL s.data⟩ : String) := by
  have key : ∀ lt : List Char, trimL lt = lt → lt.head? ≠ some '`' →
      lt.getLast? ≠ some '`' → ("json".data).isPrefixOf lt = false →
      sanitizeV5L lt = some lt ∧ trimL (fenceSub lt) = lt := by
    intro lt htr hh hl hj
    have hticks : stripTicksL lt = lt := by
      unfold stripTicksL
      have h1 : lt.dropWhile tickC = lt := by
        apply dropWhile_eq_self_of_head?
        intro x hx
        unfold tickC
        apply beq_eq_false_iff_ne.mpr
        intro he
        rw [he] at hx
        exact hh hx
      rw [h1]
      apply rdropWhile_eq_self_of_getLast?
      intro x hx
      unfold tickC
      apply beq_eq_false_iff_ne.mpr
      intro he
      rw [he] at hx
      exact hl hx
    have hfence : fenceSub lt = lt := by
      unfold fenceSub
      rw [fenceTagAt_false_of_head lt hh]
      simp only [Bool.false_eq_true, if_false]
      have hs1 : tick3.isSuffixOf lt = false := by
        cases hx : tick3.isSuffixOf lt with
        | false => rfl
        | true =>
          obtain ⟨u, hu⟩ := List.isSuffixOf_iff_suffix.mp hx
          exact absurd (by rw [← hu]; exact getLast?_append_keep u tick3 rfl) hl
      have hs2 : (tick3 ++ ['\n']).isSuffixOf lt = false := by
        cases hx : (tick3 ++ ['\n']).isSuffixOf lt with
        | false => rfl
        | true =>
          obtain ⟨u, hu⟩ := List.isSuffixOf_iff_suffix.mp hx
          have hnl : lt.getLast? = some '\n' := by
            rw [← hu]
            exact getLast?_append_keep u (tick3 ++ ['\n']) rfl
          have := trimL_getLast?_not_ws (htr.symm ▸ hnl)
          cases this
      rw [hs1, hs2]
      simp
    refine ⟨?_, ?_⟩
    · unfold sanitizeV5L
      rw [htr, hticks, htr]
      dsimp only
      rw [hj]
      simp
    · rw [hfence]
      exact htr
  have hid : trimL (trimL s.data) = trimL s.data := trimL_idem s.data
  obtain ⟨k1, k2⟩ := key (trimL s.data) hid hhead hlast hjson
  refine ⟨?_, ?_, ?_, ?_⟩
  · unfold sanitizeV5
    have hsame : sanitizeV5L s.data = sanitizeV5L (trimL s.data) := by
      unfold sanitizeV5L
      rw [hid]
    rw [hsame, k1]
    rfl
  · unfold sanitizeV2
    rw [k2]
  · unfold sanitizeV5
    rw [show ((⟨trimL s.data⟩ : String)).data = trimL s.data from rfl, k1]
    rfl
  · unfold sanitizeV2
    rw [show ((⟨trimL s.data⟩ : String)).data = trimL s.data from rfl, hid, k2]

/-- Witness for C5 (amended): a JSON document with surrounding whitespace is
merely trimmed by both sanitizers, and re-sanitizing is a no-op. -/
theorem sanitize_trim_identity_witness :
    sanitizeV5 "  \x7b\"a\": 1\x7d  " = some "\x7b\"a\": 1\x7d" ∧
    sanitizeV2 "  \x7b\"a\": 1\x7d  " = "\x7b\"a\": 1\x7d" ∧
    sanitizeV5 "\x7b\"a\": 1\x7d" = some "\x7b\"a\": 1\x7d" ∧
    sanitizeV2 "\x7b\"a\": 1\x7d" = "\x7b\"a\": 1\x7d" :=
  sanitize_trim_identity "  \x7b\"a\": 1\x7d  " (by decide) (by decide) (by decide)

end TravelAgent
